import Mathlib

/-!
Verification of the Gemini protocol adaptor (relay/channel/gemini/adaptor.go).

The development shallowly embeds the adaptor's pure logic:
* Go `strings` primitives used by the adaptor (Split, Contains, HasPrefix,
  HasSuffix, TrimSuffix) are modelled over `List Char`;
* the model-name thinking-suffix stripping of `GetRequestURL`;
* the endpoint resolution of `GetRequestURL`;
* the image / embedding / rerank request converters;
* the message-content part encoder (with Go's unchecked type assertions
  modelled as an explicit panic outcome);
* the image response handler with its synthesized usage record.

External collaborators (version lookup, base64 decoding, remote fetch,
timestamps) are passed in as parameters, mirroring the spec's §6 interface.
-/

/-! ### Go string primitives

Shallow embedding of the Go `strings` functions the adaptor calls,
working on the character data of a `String`. -/

/-- Go `strings.HasPrefix s pre`. -/
def goStartsWith (s pre : String) : Bool :=
  pre.data.isPrefixOf s.data

/-- Go `strings.HasSuffix s suf`. -/
def goHasSuffix (s suf : String) : Bool :=
  suf.data.isSuffixOf s.data

/-- Go `strings.TrimSuffix s suf`: drops the suffix when present, else `s`. -/
def goTrimSuffix (s suf : String) : String :=
  if goHasSuffix s suf then String.mk (s.data.take (s.data.length - suf.data.length)) else s

/-- Helper for Go `strings.Contains`: does `sep` occur inside `l`? -/
def goContainsList (sep : List Char) : List Char → Bool
  | [] => sep.isEmpty
  | c :: rest => sep.isPrefixOf (c :: rest) || goContainsList sep rest

/-- Go `strings.Contains s sub`. -/
def goContains (s sub : String) : Bool :=
  goContainsList sub.data s.data

/-- Helper for Go `strings.Split` with the non-empty separator `s0 :: sepRest`:
splits around each leftmost non-overlapping occurrence of the separator. -/
def goSplitList (s0 : Char) (sepRest : List Char) : List Char → List (List Char)
  | [] => [[]]
  | c :: rest =>
    if (s0 :: sepRest).isPrefixOf (c :: rest) then
      [] :: goSplitList s0 sepRest (rest.drop sepRest.length)
    else
      match goSplitList s0 sepRest rest with
      | [] => [[c]]
      | t :: ts => (c :: t) :: ts
termination_by l => l.length
decreasing_by
  · simp only [List.length_drop, List.length_cons]
    omega
  · simp

/-- Go `strings.Split s sep` (for empty `sep`, Go splits into the individual
character sequences; the adaptor only ever uses the separator "-thinking-"). -/
def goSplit (s sep : String) : List String :=
  match sep.data with
  | [] => s.data.map fun c => String.mk [c]
  | c :: cs => (goSplitList c cs s.data).map String.mk

/-! ### Lemmas about the Go string primitives -/

theorem isPrefixOf_append_self (l t : List Char) : l.isPrefixOf (l ++ t) = true := by
  induction l with
  | nil => simp [List.isPrefixOf]
  | cons c cs ih => simp [List.isPrefixOf, ih]

theorem isPrefixOf_cons_of_ne (s0 c : Char) (cs rest : List Char) (h : s0 ≠ c) :
    (s0 :: cs).isPrefixOf (c :: rest) = false := by
  simp [List.isPrefixOf, h]

/-- Splitting a list that starts with the separator. -/
theorem goSplitList_sep_append (s0 : Char) (cs l : List Char) :
    goSplitList s0 cs (s0 :: (cs ++ l)) = [] :: goSplitList s0 cs l := by
  rw [goSplitList]
  have hpre : (s0 :: cs).isPrefixOf (s0 :: (cs ++ l)) = true := by
    simp [List.isPrefixOf, isPrefixOf_append_self]
  rw [hpre]
  simp [List.drop_left]

/-- A list free of the separator's head character is returned whole. -/
theorem goSplitList_no_sep (s0 : Char) (cs : List Char) (l : List Char)
    (h : ∀ c ∈ l, c ≠ s0) : goSplitList s0 cs l = [l] := by
  induction l with
  | nil => rw [goSplitList]
  | cons c rest ih =>
    rw [goSplitList]
    have hc : s0 ≠ c := fun he => (h c (by simp)) he.symm
    rw [isPrefixOf_cons_of_ne s0 c cs rest hc]
    simp only [Bool.false_eq_true, if_false]
    rw [ih (fun x hx => h x (by simp [hx]))]

/-- Splitting `pre ++ sep ++ l` when `pre` is free of the separator's head
character yields `pre` followed by the splitting of `l`. -/
theorem goSplitList_pre_append (s0 : Char) (cs : List Char) (pre l : List Char)
    (h : ∀ c ∈ pre, c ≠ s0) :
    goSplitList s0 cs (pre ++ (s0 :: cs) ++ l) = pre :: goSplitList s0 cs l := by
  induction pre with
  | nil => simpa using goSplitList_sep_append s0 cs l
  | cons c pre' ih =>
    have hstep : (c :: pre') ++ (s0 :: cs) ++ l = c :: (pre' ++ (s0 :: cs) ++ l) := by simp
    rw [hstep, goSplitList]
    have hc : s0 ≠ c := fun he => (h c (by simp)) he.symm
    rw [isPrefixOf_cons_of_ne s0 c cs _ hc]
    simp only [Bool.false_eq_true, if_false]
    rw [ih (fun x hx => h x (by simp [hx]))]

/-- The separator is found inside `pre ++ sep ++ l`. -/
theorem goContainsList_pre_append (s0 : Char) (cs : List Char) (pre l : List Char) :
    goContainsList (s0 :: cs) (pre ++ s0 :: (cs ++ l)) = true := by
  induction pre with
  | nil =>
    simp [goContainsList, List.isPrefixOf, isPrefixOf_append_self]
  | cons c pre' ih =>
    simp [goContainsList, ih]

/-! ### Decimal representation round trip

Lean prints a `Nat` with `Nat.repr` and the budget parser reads it back with
`String.toNat?`; the lemmas here establish that round trip. -/

/-- The decimal character list of a natural number, most significant digit
first (reasoning counterpart of `Nat.repr`). -/
def decChars (n : Nat) : List Char :=
  if _h : n < 10 then [Nat.digitChar n]
  else decChars (n / 10) ++ [Nat.digitChar (n % 10)]
termination_by n
decreasing_by
  exact Nat.div_lt_self (by omega) (by omega)

theorem toDigitsCore_eq_decChars (fuel : Nat) :
    ∀ n ds, n < fuel → Nat.toDigitsCore 10 fuel n ds = decChars n ++ ds := by
  induction fuel with
  | zero => intro n ds h; omega
  | succ f ih =>
    intro n ds h
    rw [Nat.toDigitsCore]
    by_cases h10 : n < 10
    · have hdiv : n / 10 = 0 := Nat.div_eq_of_lt h10
      have hmod : n % 10 = n := Nat.mod_eq_of_lt h10
      simp only [hdiv, hmod, if_pos rfl]
      rw [decChars]
      simp [h10]
    · have hdivpos : n / 10 ≠ 0 := by omega
      simp only [hdivpos, if_false]
      have hlt : n / 10 < f := by
        have h1 : n / 10 < n := Nat.div_lt_self (by omega) (by omega)
        omega
      rw [ih (n / 10) (Nat.digitChar (n % 10) :: ds) hlt]
      conv_rhs => rw [decChars]
      simp [h10]

theorem repr_data (n : Nat) : (Nat.repr n).data = decChars n := by
  show (Nat.toDigits 10 n).asString.data = decChars n
  have h1 : Nat.toDigits 10 n = Nat.toDigitsCore 10 (n + 1) n [] := rfl
  rw [h1, toDigitsCore_eq_decChars (n + 1) n [] (Nat.lt_succ_self n)]
  simp [List.asString]

theorem decChars_ne_nil (n : Nat) : decChars n ≠ [] := by
  rw [decChars]
  by_cases h : n < 10 <;> simp [h]

theorem decChars_all_digit (n : Nat) : ∀ c ∈ decChars n, c.isDigit = true := by
  induction n using Nat.strong_induction_on with
  | _ n ih =>
    rw [decChars]
    by_cases h : n < 10
    · simp only [h, dif_pos, List.mem_singleton]
      intro c hc
      rw [hc]
      exact (by decide : ∀ d, d < 10 → (Nat.digitChar d).isDigit = true) n h
    · simp only [h, dif_neg, not_false_iff, List.mem_append, List.mem_singleton]
      intro c hc
      rcases hc with hc | hc
      · exact ih (n / 10) (Nat.div_lt_self (by omega) (by omega)) c hc
      · rw [hc]
        exact (by decide : ∀ d, d < 10 → (Nat.digitChar d).isDigit = true) (n % 10)
          (Nat.mod_lt n (by omega))

theorem foldl_decChars (n : Nat) : ∀ acc : Nat,
    List.foldl (fun a c => a * 10 + (c.toNat - '0'.toNat)) acc (decChars n)
      = acc * 10 ^ (decChars n).length + n := by
  induction n using Nat.strong_induction_on with
  | _ n ih =>
    intro acc
    rw [decChars]
    by_cases h : n < 10
    · simp only [h, dif_pos, List.foldl_cons, List.foldl_nil, List.length_singleton]
      have hd : (Nat.digitChar n).toNat - '0'.toNat = n :=
        (by decide : ∀ d, d < 10 → (Nat.digitChar d).toNat - '0'.toNat = d) n h
      rw [hd]
      ring
    · simp only [h, dif_neg, not_false_iff, List.foldl_append, List.foldl_cons,
        List.foldl_nil, List.length_append, List.length_singleton]
      rw [ih (n / 10) (Nat.div_lt_self (by omega) (by omega)) acc]
      have hd : (Nat.digitChar (n % 10)).toNat - '0'.toNat = n % 10 :=
        (by decide : ∀ d, d < 10 → (Nat.digitChar d).toNat - '0'.toNat = d) (n % 10)
          (Nat.mod_lt n (by omega))
      rw [hd]
      calc (acc * 10 ^ (decChars (n / 10)).length + n / 10) * 10 + n % 10
          = acc * (10 ^ (decChars (n / 10)).length * 10) + (n / 10 * 10 + n % 10) := by ring
        _ = acc * 10 ^ ((decChars (n / 10)).length + 1) + n := by
            rw [Nat.div_add_mod', pow_succ]

theorem toNat?_repr (n : Nat) : (Nat.repr n).toNat? = some n := by
  have hdata := repr_data n
  have hne : (Nat.repr n).data ≠ [] := by rw [hdata]; exact decChars_ne_nil n
  have hempty : (Nat.repr n).isEmpty = false := by
    rw [Bool.eq_false_iff]
    intro hemp
    apply hne
    rw [(String.isEmpty_iff (Nat.repr n)).mp hemp]
  have hall : (Nat.repr n).all Char.isDigit = true := by
    rw [String.all_eq, hdata, List.all_eq_true]
    exact decChars_all_digit n
  show (if (Nat.repr n).isNat then
      some ((Nat.repr n).foldl (fun a c => a * 10 + (c.toNat - '0'.toNat)) 0) else none) = some n
  have hnat : (Nat.repr n).isNat = true := by
    show (!(Nat.repr n).isEmpty && (Nat.repr n).all Char.isDigit) = true
    rw [hempty, hall]
    rfl
  rw [hnat, if_pos rfl]
  rw [String.foldl_eq, hdata, foldl_decChars n 0]
  simp

theorem repr_no_dash (n : Nat) : ∀ c ∈ (Nat.repr n).data, c ≠ '-' := by
  intro c hc he
  have hd := decChars_all_digit n c (by rw [← repr_data]; exact hc)
  rw [he] at hd
  exact absurd hd (by decide)

/-! ### Data model (dto and vendor wire shapes) -/

/-- Vendor inline-media blob (`GeminiInlineData{MimeType, Data}`). -/
structure GeminiInlineData where
  mimeType : String
  data : String
deriving Repr, DecidableEq

/-- Vendor content part (`GeminiPart{Text, InlineData}`); Go leaves the unused
field at its zero value. -/
structure GeminiPart where
  text : String
  inlineData : Option GeminiInlineData
deriving Repr, DecidableEq

/-- Vendor chat content entry (`GeminiChatContent{Role, Parts}`). -/
structure GeminiChatContent where
  role : String
  parts : List GeminiPart
deriving Repr, DecidableEq

/-- Vendor imagen instance (`GeminiImageInstance{Prompt}`). -/
structure GeminiImageInstance where
  prompt : String
deriving Repr, DecidableEq

/-- Vendor imagen parameters (`GeminiImageParameters`). -/
structure GeminiImageParameters where
  sampleCount : Int
  aspectRatio : String
  personGeneration : String
deriving Repr, DecidableEq

/-- Vendor imagen request (`GeminiImageRequest{Instances, Parameters}`). -/
structure GeminiImageRequest where
  instances : List GeminiImageInstance
  parameters : GeminiImageParameters
deriving Repr, DecidableEq

/-- Vendor embedding request (`GeminiEmbeddingRequest{Content,
OutputDimensionality}`); the dimensionality keeps Go's zero value 0 when it is
not set. -/
structure GeminiEmbeddingRequest where
  content : GeminiChatContent
  outputDimensionality : Int
deriving Repr, DecidableEq

/-- Vendor imagen prediction (`GeminiImagePrediction`). -/
structure GeminiImagePrediction where
  bytesBase64Encoded : String
  raiFilteredReason : String
deriving Repr, DecidableEq

/-- Vendor imagen response (`GeminiImageResponse{Predictions}`). -/
structure GeminiImageResponse where
  predictions : List GeminiImagePrediction
deriving Repr, DecidableEq

/-- Unified image result entry (`dto.ImageData`; the handler only sets
`B64Json`). -/
structure ImageData where
  b64Json : String
deriving Repr, DecidableEq

/-- Unified image response (`dto.ImageResponse{Created, Data}`). -/
structure ImageResponse where
  created : Nat
  data : List ImageData
deriving Repr, DecidableEq

/-- Unified usage record (`dto.Usage`). -/
structure Usage where
  promptTokens : Nat
  completionTokens : Nat
  totalTokens : Nat
deriving Repr, DecidableEq

/-- Structured handler error (`dto.OpenAIErrorWithStatusCode` as produced by
`service.OpenAIErrorWrapper(err, code, statusCode)`). -/
structure ErrorWithStatusCode where
  message : String
  code : String
  statusCode : Nat
deriving Repr, DecidableEq

/-- Unified image generation request (`dto.ImageRequest`; only the fields the
adaptor reads). -/
structure ImageRequest where
  prompt : String
  n : Int
  size : String
deriving Repr, DecidableEq

/-- Modelled from the spec: `dto.EmbeddingRequest` lives outside this core
(src only has its caller); per spec §4.3 the input is either absent (`nil`)
or `ParseInput` yields a sequence of strings, and `Dimensions` is the
requested output dimensionality. -/
structure EmbeddingRequest where
  input : Option (List String)
  dimensions : Int
deriving Repr, DecidableEq

/-- Modelled from the spec: `dto.RerankRequest` lives outside this core; the
rerank converter ignores the request entirely, only its shape is needed. -/
structure RerankRequest where
  model : String
  query : String
  documents : List String
deriving Repr, DecidableEq

/-- Dynamically-typed Go value (`any`), as the adaptor inspects it: strings,
`[]any` sequences, `map[string]any` objects, `nil`, and everything else. -/
inductive GoValue where
  | str (s : String)
  | list (items : List GoValue)
  | map (entries : List (String × GoValue))
  | nullv
  | other

/-- Unified chat message (`dto.Message`; role plus dynamically-typed
content). -/
structure DtoMessage where
  role : String
  content : GoValue

/-- Relay bookkeeping (`relaycommon.RelayInfo`; only the fields
`GetRequestURL` reads and writes). -/
structure RelayInfo where
  upstreamModelName : String
  baseUrl : String
  isStream : Bool
deriving Repr, DecidableEq

/-- Gemini channel settings (`model_setting.GetGeminiSettings()`; only the
thinking-adapter flag is read here). -/
structure GeminiSettings where
  thinkingAdapterEnabled : Bool
deriving Repr, DecidableEq

/-- Reasoning directive surface forms of spec §4.1. -/
inductive ReasoningMode where
  | default
  | forcedOn
  | forcedOff
deriving Repr, DecidableEq

/-- Parsed model directive of spec §3/§4.1. -/
structure ModelDirective where
  canonicalModelId : String
  reasoningBudget : Option Nat
  reasoningMode : ReasoningMode
deriving Repr, DecidableEq

/-! ### Model directive parsing and endpoint resolution (`GetRequestURL`) -/

/-- The thinking-suffix stripping at the top of `GetRequestURL`
(adaptor.go lines 102-112): when the thinking adapter is enabled,
`<base>-thinking-<budget>` and the `-thinking` / `-nothinking` suffixes are
stripped from the effective model name, in that precedence order. -/
def applyThinkingAdapter (enabled : Bool) (name : String) : String :=
  if enabled then
    if goContains name "-thinking-" then
      (goSplit name "-thinking-").headD ""
    else if goHasSuffix name "-thinking" then
      goTrimSuffix name "-thinking"
    else if goHasSuffix name "-nothinking" then
      goTrimSuffix name "-nothinking"
    else name
  else name

/-- Modelled from the spec: the full directive of spec §4.1. The canonical
model id follows `GetRequestURL` (adaptor.go lines 102-112); the
`reasoningBudget` / `reasoningMode` fields are not computed inside src/ (the
chat request converter that consumes them lives outside this core), so they
follow the spec's words: the budget is the integer parsed from `<budget>`,
`-thinking` forces reasoning on, `-nothinking` forces it off. -/
def parseDirective (enabled : Bool) (name : String) : ModelDirective :=
  if enabled then
    if goContains name "-thinking-" then
      let parts := goSplit name "-thinking-"
      { canonicalModelId := parts.headD ""
        reasoningBudget := (parts.getD 1 "").toNat?
        reasoningMode := ReasoningMode.default }
    else if goHasSuffix name "-thinking" then
      { canonicalModelId := goTrimSuffix name "-thinking"
        reasoningBudget := none
        reasoningMode := ReasoningMode.forcedOn }
    else if goHasSuffix name "-nothinking" then
      { canonicalModelId := goTrimSuffix name "-nothinking"
        reasoningBudget := none
        reasoningMode := ReasoningMode.forcedOff }
    else { canonicalModelId := name, reasoningBudget := none
           reasoningMode := ReasoningMode.default }
  else { canonicalModelId := name, reasoningBudget := none
         reasoningMode := ReasoningMode.default }

/-- `GetRequestURL` (adaptor.go lines 100-131): strips the thinking suffixes
from the effective model name, then resolves the endpoint URL by model-name
prefix. The version lookup (`model_setting.GetGeminiVersionSetting`) is the
external `versionOf` parameter; the mutated `RelayInfo` is returned alongside
the URL. -/
def GetRequestURL (settings : GeminiSettings) (versionOf : String → String)
    (info : RelayInfo) : RelayInfo × String :=
  let name := applyThinkingAdapter settings.thinkingAdapterEnabled info.upstreamModelName
  let info2 : RelayInfo := { info with upstreamModelName := name }
  let version := versionOf name
  let url :=
    if goStartsWith name "imagen" then
      info2.baseUrl ++ "/" ++ version ++ "/models/" ++ name ++ ":predict"
    else if goStartsWith name "text-embedding" || goStartsWith name "embedding"
        || goStartsWith name "gemini-embedding" then
      info2.baseUrl ++ "/" ++ version ++ "/models/" ++ name ++ ":embedContent"
    else
      info2.baseUrl ++ "/" ++ version ++ "/models/" ++ name ++ ":"
        ++ (if info2.isStream then "streamGenerateContent?alt=sse" else "generateContent")
  (info2, url)

/-! ### Request converters -/

/-- The size-to-aspect-ratio switch of `ConvertImageRequest`
(adaptor.go lines 68-77): default "1:1", with the three literal sizes
mapped explicitly. -/
def sizeToAspectRatio (size : String) : String :=
  match size with
  | "1024x1024" => "1:1"
  | "1024x1792" => "9:16"
  | "1792x1024" => "16:9"
  | _ => "1:1"

/-- `ConvertImageRequest` (adaptor.go lines 63-94): rejects non-"imagen"
models, then builds one instance from the prompt with the mapped aspect
ratio, the requested sample count and the fixed person policy. -/
def ConvertImageRequest (upstreamModelName : String) (request : ImageRequest) :
    Except String GeminiImageRequest :=
  if !goStartsWith upstreamModelName "imagen" then
    Except.error "not supported model for image generation"
  else
    Except.ok
      { instances := [{ prompt := request.prompt }]
        parameters :=
          { sampleCount := request.n
            aspectRatio := sizeToAspectRatio request.size
            personGeneration := "allow_adult" } }

/-- `ConvertRerankRequest` (adaptor.go lines 152-154): returns `nil, nil`
unconditionally. -/
def ConvertRerankRequest (relayMode : Int) (request : RerankRequest) :
    Option GoValue × Option String :=
  (none, none)

/-- `ConvertEmbeddingRequest` (adaptor.go lines 156-188): errors on an absent
or empty input, uses only the first parsed input string as the content text,
and forwards a positive requested dimensionality only for the model
"text-embedding-004". -/
def ConvertEmbeddingRequest (upstreamModelName : String) (request : EmbeddingRequest) :
    Except String GeminiEmbeddingRequest :=
  match request.input with
  | none => Except.error "input is required"
  | some inputs =>
    match inputs with
    | [] => Except.error "input is empty"
    | first :: _ =>
      let base : GeminiEmbeddingRequest :=
        { content := { role := "", parts := [{ text := first, inlineData := none }] }
          outputDimensionality := 0 }
      match upstreamModelName with
      | "text-embedding-004" =>
        if request.dimensions > 0 then
          Except.ok { base with outputDimensionality := request.dimensions }
        else Except.ok base
      | _ => Except.ok base

/-! ### Part/content encoder -/

/-- Result of a Go computation that can return normally, return an error, or
panic on an unchecked type assertion. -/
inductive Outcome (A : Type) where
  | panicked
  | failed (msg : String)
  | ok (val : A)

/-- Go map read `m[key]` on a `map[string]any`: a missing key yields the zero
value `nil`. -/
def goMapGet (entries : List (String × GoValue)) (key : String) : GoValue :=
  match entries with
  | [] => GoValue.nullv
  | (k, v) :: rest => if k = key then v else goMapGet rest key

/-- Unchecked Go type assertion `v.(string)`: `none` models the panic. -/
def assertString : GoValue → Option String
  | GoValue.str s => some s
  | _ => none

/-- Checked Go type assertion `v.(map[string]any)` with the ok flag
discarded: failure leaves the nil (empty) map. -/
def asMapOrNil : GoValue → List (String × GoValue)
  | GoValue.map entries => entries
  | _ => []

/-- Prepend a part to the parts produced for the remaining items. -/
def prependPart (p : GeminiPart) : Outcome (List GeminiPart) → Outcome (List GeminiPart)
  | Outcome.ok ps => Outcome.ok (p :: ps)
  | Outcome.failed e => Outcome.failed e
  | Outcome.panicked => Outcome.panicked

/-- The item loop of `openAIMessageContentToGeminiParts`
(adaptor.go lines 279-308): non-map items are skipped; "text" items read the
"text" field with an unchecked string assertion; "image_url" items read
"image_url"."url" with an unchecked string assertion, try the inline base64
decoding (`service.DecodeBase64FileData`, the external `decode`), and fall
back to the remote fetch (`service.GetFileBase64FromUrl`, the external
`fetch`) whose failure aborts the conversion; any other item type is
skipped. -/
def encodeItems (decode fetch : String → Except String (String × String)) :
    List GoValue → Outcome (List GeminiPart)
  | [] => Outcome.ok []
  | item :: rest =>
    match item with
    | GoValue.map entries =>
      match assertString (goMapGet entries "type") with
      | some tyStr =>
        if tyStr = "text" then
          match assertString (goMapGet entries "text") with
          | none => Outcome.panicked
          | some s =>
            prependPart { text := s, inlineData := none } (encodeItems decode fetch rest)
        else if tyStr = "image_url" then
          let imageUrl := asMapOrNil (goMapGet entries "image_url")
          match assertString (goMapGet imageUrl "url") with
          | none => Outcome.panicked
          | some url =>
            match decode url with
            | Except.ok (format, b64) =>
              prependPart { text := "", inlineData := some { mimeType := format, data := b64 } }
                (encodeItems decode fetch rest)
            | Except.error _ =>
              match fetch url with
              | Except.error e => Outcome.failed e
              | Except.ok (mime, b64) =>
                prependPart { text := "", inlineData := some { mimeType := mime, data := b64 } }
                  (encodeItems decode fetch rest)
        else encodeItems decode fetch rest
      | none => encodeItems decode fetch rest
    | _ => encodeItems decode fetch rest

/-- `openAIMessageContentToGeminiParts` (adaptor.go lines 265-311): a plain
string becomes a single Text part; a `[]any` sequence goes through the item
loop; anything else is the "unsupported message content format" error.
Non-string values in the "type" switch match no case and the item is
skipped, mirroring Go's `switch` on an `any` value. -/
def openAIMessageContentToGeminiParts
    (decode fetch : String → Except String (String × String)) (content_any : GoValue) :
    Outcome (List GeminiPart) :=
  match content_any with
  | GoValue.str content => Outcome.ok [{ text := content, inlineData := none }]
  | GoValue.list mediaContents => encodeItems decode fetch mediaContents
  | _ => Outcome.failed "unsupported message content format"

/-- `openAIMessageToGeminiContent` (adaptor.go lines 246-263): maps role
"assistant" to "model" and encodes the content through the part encoder. -/
def openAIMessageToGeminiContent
    (decode fetch : String → Except String (String × String)) (message : DtoMessage) :
    Outcome GeminiChatContent :=
  let role := if message.role = "assistant" then "model" else message.role
  match openAIMessageContentToGeminiParts decode fetch message.content with
  | Outcome.panicked => Outcome.panicked
  | Outcome.failed e => Outcome.failed e
  | Outcome.ok parts => Outcome.ok { role := role, parts := parts }

/-! ### Image response handler -/

/-- The predictions that survive the policy filter: exactly those with an
empty `RaiFilteredReason` (the loop at adaptor.go lines 379-386 skips the
others). -/
def survivingPredictions (resp : GeminiImageResponse) : List GeminiImagePrediction :=
  resp.predictions.filter fun p => p.raiFilteredReason == ""

/-- `GeminiImageHandler` (adaptor.go lines 357-409) after the body has been
read: `parsedBody` is the result of `json.Unmarshal` (its failure becomes the
wrapped unmarshal error); an empty prediction list is the "no images
generated" error; otherwise the non-filtered predictions become the image
list and usage is synthesized at 258 prompt tokens per surviving image with
zero completion tokens. `created` is the external timestamp
(`common.GetTimestamp()`). -/
def GeminiImageHandler (created : Nat) (parsedBody : Except String GeminiImageResponse) :
    Except ErrorWithStatusCode (ImageResponse × Usage) :=
  match parsedBody with
  | Except.error e =>
    Except.error { message := e, code := "unmarshal_response_body_failed", statusCode := 500 }
  | Except.ok geminiResponse =>
    if geminiResponse.predictions.length = 0 then
      Except.error { message := "no images generated", code := "no_images", statusCode := 400 }
    else
      let dataList := (survivingPredictions geminiResponse).map
        fun p => ({ b64Json := p.bytesBase64Encoded } : ImageData)
      let openAIResponse : ImageResponse := { created := created, data := dataList }
      let generatedImages := dataList.length
      Except.ok (openAIResponse,
        { promptTokens := 258 * generatedImages
          completionTokens := 0
          totalTokens := 258 * generatedImages })

/-! ### Claim theorems -/

/-- C6: the image-size-to-aspect-ratio mapping is a pure total function on
strings: exactly "1024x1792" maps to "9:16", exactly "1792x1024" maps to
"16:9", exactly "1024x1024" maps to "1:1", and every other string (including
the empty string) maps to "1:1". -/
theorem sizeToAspectRatio_spec (s : String) :
    sizeToAspectRatio "1024x1792" = "9:16" ∧
    sizeToAspectRatio "1792x1024" = "16:9" ∧
    sizeToAspectRatio "1024x1024" = "1:1" ∧
    sizeToAspectRatio "" = "1:1" ∧
    (s ≠ "1024x1024" → s ≠ "1024x1792" → s ≠ "1792x1024" → sizeToAspectRatio s = "1:1") := by
  refine ⟨rfl, rfl, rfl, rfl, ?_⟩
  intro h1 h2 h3
  unfold sizeToAspectRatio
  split <;> simp_all

/-- Witness for C6 at the concrete size "640x480". -/
theorem sizeToAspectRatio_spec_witness : sizeToAspectRatio "640x480" = "1:1" :=
  (sizeToAspectRatio_spec "640x480").2.2.2.2 (by decide) (by decide) (by decide)

/-- C10: the rerank converter returns a nil payload and a nil error for every
rerank request; no unsupported-model or invalid-input error is signaled. -/
theorem ConvertRerankRequest_nil (relayMode : Int) (request : RerankRequest) :
    ConvertRerankRequest relayMode request = (none, none) := rfl

/-- C7: a unified chat message with role "assistant" and plain string content
`s` converts to exactly one vendor content entry with role "model" containing
exactly one Text part whose text equals `s`, for any external decode/fetch
collaborators. -/
theorem assistantMessage_to_model (decode fetch : String → Except String (String × String))
    (s : String) :
    openAIMessageToGeminiContent decode fetch { role := "assistant", content := GoValue.str s } =
      Outcome.ok { role := "model", parts := [{ text := s, inlineData := none }] } := rfl

/-- C9: the part/content encoder panics (unchecked Go type assertion) on a
"text" item whose "text" field is missing or not a string, and on an
"image_url" item whose "image_url"."url" field is missing or not a string,
instead of returning a conversion error or skipping the item — for any
external decode/fetch collaborators. -/
theorem partEncoder_panics (decode fetch : String → Except String (String × String)) :
    openAIMessageContentToGeminiParts decode fetch
        (GoValue.list [GoValue.map [("type", GoValue.str "text")]]) = Outcome.panicked ∧
    openAIMessageContentToGeminiParts decode fetch
        (GoValue.list [GoValue.map [("type", GoValue.str "text"), ("text", GoValue.other)]])
      = Outcome.panicked ∧
    openAIMessageContentToGeminiParts decode fetch
        (GoValue.list [GoValue.map [("type", GoValue.str "image_url")]]) = Outcome.panicked ∧
    openAIMessageContentToGeminiParts decode fetch
        (GoValue.list [GoValue.map [("type", GoValue.str "image_url"),
          ("image_url", GoValue.other)]]) = Outcome.panicked ∧
    openAIMessageContentToGeminiParts decode fetch
        (GoValue.list [GoValue.map [("type", GoValue.str "image_url"),
          ("image_url", GoValue.map [("url", GoValue.other)])]]) = Outcome.panicked :=
  ⟨rfl, rfl, rfl, rfl, rfl⟩

/-- C8: with the thinking adapter disabled, directive parsing is the
identity: the effective model name is not mutated by `GetRequestURL`, and the
parsed directive is just the canonical model id. -/
theorem thinkingAdapterDisabled_identity (m : String) (versionOf : String → String)
    (info : RelayInfo) :
    applyThinkingAdapter false m = m ∧
    parseDirective false m =
      { canonicalModelId := m, reasoningBudget := none
        reasoningMode := ReasoningMode.default } ∧
    (GetRequestURL { thinkingAdapterEnabled := false } versionOf info).1 = info :=
  ⟨rfl, rfl, rfl⟩

/-- C4: for every model id the endpoint resolver produces
`{base}/{version}/models/{id}:{action}`, with action "predict" for an
"imagen"-prefixed id, "embedContent" for an embedding-prefixed id, and
otherwise "streamGenerateContent?alt=sse" iff streaming else
"generateContent", the rules tried in that order. -/
theorem GetRequestURL_url_spec (settings : GeminiSettings) (versionOf : String → String)
    (info : RelayInfo) :
    (GetRequestURL settings versionOf info).2 =
      info.baseUrl ++ "/"
      ++ versionOf (applyThinkingAdapter settings.thinkingAdapterEnabled info.upstreamModelName)
      ++ "/models/"
      ++ applyThinkingAdapter settings.thinkingAdapterEnabled info.upstreamModelName
      ++ ":"
      ++ (if goStartsWith
            (applyThinkingAdapter settings.thinkingAdapterEnabled info.upstreamModelName)
            "imagen" then "predict"
          else if goStartsWith
              (applyThinkingAdapter settings.thinkingAdapterEnabled info.upstreamModelName)
              "text-embedding"
            || goStartsWith
              (applyThinkingAdapter settings.thinkingAdapterEnabled info.upstreamModelName)
              "embedding"
            || goStartsWith
              (applyThinkingAdapter settings.thinkingAdapterEnabled info.upstreamModelName)
              "gemini-embedding" then "embedContent"
          else if info.isStream then "streamGenerateContent?alt=sse"
          else "generateContent") := by
  have hp : (":" : String) ++ "predict" = ":predict" := by decide
  have he : (":" : String) ++ "embedContent" = ":embedContent" := by decide
  simp only [GetRequestURL]
  split_ifs <;> simp_all [String.append_assoc, hp, he]

/-- C5: the embedding converter errors iff the input is absent or parses to
an empty sequence, and on any non-empty parsed input it succeeds with a
payload whose content carries only the first input string as its text. -/
theorem ConvertEmbeddingRequest_spec (name : String) (req : EmbeddingRequest) :
    ((∃ e, ConvertEmbeddingRequest name req = Except.error e) ↔
      (req.input = none ∨ req.input = some [])) ∧
    (∀ first rest, req.input = some (first :: rest) →
      ∃ r, ConvertEmbeddingRequest name req = Except.ok r ∧
        r.content.parts = [{ text := first, inlineData := none }]) := by
  obtain ⟨input, dims⟩ := req
  cases input with
  | none =>
    constructor
    · simp [ConvertEmbeddingRequest]
    · intro first rest h
      simp at h
  | some inputs =>
    cases inputs with
    | nil =>
      constructor
      · simp [ConvertEmbeddingRequest]
      · intro first rest h
        simp at h
    | cons first rest =>
      constructor
      · constructor
        · rintro ⟨e, he⟩
          exfalso
          revert he
          simp only [ConvertEmbeddingRequest]
          split
          · split <;> simp
          · simp
        · rintro (h | h) <;> simp at h
      · rintro f r hf
        simp only [Option.some.injEq, List.cons.injEq] at hf
        obtain ⟨h1, h2⟩ := hf
        subst h1
        simp only [ConvertEmbeddingRequest]
        split
        · split
          · exact ⟨_, rfl, rfl⟩
          · exact ⟨_, rfl, rfl⟩
        · exact ⟨_, rfl, rfl⟩

/-- Witness for C5 at the concrete input ["a", "b", "c"]. -/
theorem ConvertEmbeddingRequest_spec_witness :
    ∃ r, ConvertEmbeddingRequest "gemini-embedding-001"
        { input := some ["a", "b", "c"], dimensions := 0 } = Except.ok r ∧
      r.content.parts = [{ text := "a", inlineData := none }] :=
  (ConvertEmbeddingRequest_spec "gemini-embedding-001"
    { input := some ["a", "b", "c"], dimensions := 0 }).2 "a" ["b", "c"] rfl

/-- C2: whenever the image handler succeeds on a parsed vendor response with
N surviving (non-filtered) predictions, the synthesized usage record is
exactly {prompt: 258*N, completion: 0, total: 258*N}; in particular
totalTokens = promptTokens + completionTokens. -/
theorem GeminiImageHandler_usage_spec (created : Nat) (resp : GeminiImageResponse)
    (r : ImageResponse) (u : Usage)
    (h : GeminiImageHandler created (Except.ok resp) = Except.ok (r, u)) :
    u.promptTokens = 258 * (survivingPredictions resp).length ∧
    u.completionTokens = 0 ∧
    u.totalTokens = 258 * (survivingPredictions resp).length ∧
    u.totalTokens = u.promptTokens + u.completionTokens := by
  simp only [GeminiImageHandler] at h
  by_cases hlen : resp.predictions.length = 0
  · rw [if_pos hlen] at h
    simp at h
  · rw [if_neg hlen] at h
    simp only [Except.ok.injEq, Prod.mk.injEq] at h
    obtain ⟨h1, h2⟩ := h
    rw [← h2]
    simp [List.length_map]

/-- Witness for C2: a response with one surviving prediction yields the
{258, 0, 258} usage record. -/
theorem GeminiImageHandler_usage_spec_witness :
    (Usage.mk 258 0 258).promptTokens = 258 * (survivingPredictions
        { predictions := [{ bytesBase64Encoded := "x", raiFilteredReason := "" }] }).length ∧
    (Usage.mk 258 0 258).completionTokens = 0 ∧
    (Usage.mk 258 0 258).totalTokens = 258 * (survivingPredictions
        { predictions := [{ bytesBase64Encoded := "x", raiFilteredReason := "" }] }).length ∧
    (Usage.mk 258 0 258).totalTokens =
      (Usage.mk 258 0 258).promptTokens + (Usage.mk 258 0 258).completionTokens :=
  GeminiImageHandler_usage_spec 7
    { predictions := [{ bytesBase64Encoded := "x", raiFilteredReason := "" }] }
    (ImageResponse.mk 7 [ImageData.mk "x"]) (Usage.mk 258 0 258) rfl

/-- C1 counterexample: a vendor response whose only prediction is
policy-filtered has an empty surviving list, yet the handler returns a
zero-usage success (with an empty image list), not the "no images generated"
error the claim requires. -/
theorem allFiltered_success_counterexample :
    survivingPredictions
        { predictions := [{ bytesBase64Encoded := "img", raiFilteredReason := "safety" }] }
      = [] ∧
    GeminiImageHandler 0 (Except.ok
        { predictions := [{ bytesBase64Encoded := "img", raiFilteredReason := "safety" }] }) =
      Except.ok ({ created := 0, data := [] },
        { promptTokens := 0, completionTokens := 0, totalTokens := 0 }) :=
  ⟨rfl, rfl⟩

/-- C1 (amended): the handler returns the "no images generated" error exactly
when the raw vendor prediction list (before policy filtering) is empty; when
the raw list is non-empty the handler succeeds even if every prediction is
filtered, in which case the image list is empty and usage is zero. -/
theorem GeminiImageHandler_empty_spec (created : Nat) (resp : GeminiImageResponse) :
    (resp.predictions = [] →
      GeminiImageHandler created (Except.ok resp) =
        Except.error { message := "no images generated", code := "no_images"
                       statusCode := 400 }) ∧
    (resp.predictions ≠ [] →
      ∃ r u, GeminiImageHandler created (Except.ok resp) = Except.ok (r, u)) := by
  constructor
  · intro h
    simp only [GeminiImageHandler]
    rw [if_pos (by simp [h])]
  · intro h
    simp only [GeminiImageHandler]
    rw [if_neg (by simpa using h)]
    exact ⟨_, _, rfl⟩

/-- Witness for the amended C1: the empty response errors, and an
all-filtered (but non-empty) response succeeds. -/
theorem GeminiImageHandler_empty_spec_witness :
    (GeminiImageHandler 0 (Except.ok { predictions := [] }) =
      Except.error { message := "no images generated", code := "no_images"
                     statusCode := 400 }) ∧
    (∃ r u, GeminiImageHandler 0 (Except.ok
        { predictions := [{ bytesBase64Encoded := "img", raiFilteredReason := "safety" }] }) =
      Except.ok (r, u)) :=
  ⟨(GeminiImageHandler_empty_spec 0 { predictions := [] }).1 rfl,
   (GeminiImageHandler_empty_spec 0
      { predictions := [{ bytesBase64Encoded := "img", raiFilteredReason := "safety" }] }).2
      (by simp)⟩

/-- C3: with the thinking adapter enabled, parsing the model id
"foo-thinking-" ++ b for any budget b ≥ 0 strips the suffix to the canonical
model id "foo" (as `GetRequestURL` does), and the parsed directive carries
reasoningBudget = b. -/
theorem thinkingBudget_parse (b : Nat) :
    applyThinkingAdapter true ("foo-thinking-" ++ Nat.repr b) = "foo" ∧
    parseDirective true ("foo-thinking-" ++ Nat.repr b) =
      { canonicalModelId := "foo", reasoningBudget := some b
        reasoningMode := ReasoningMode.default } := by
  have hmk : ∀ t : String, String.mk t.data = t := fun t => rfl
  have hsep : ("-thinking-" : String).data = '-' :: ("thinking-" : String).data := by decide
  have hlit : ("foo-thinking-" : String).data
      = ("foo" : String).data ++ ('-' :: ("thinking-" : String).data) := by decide
  have hdata : ("foo-thinking-" ++ Nat.repr b).data
      = (("foo" : String).data ++ ('-' :: ("thinking-" : String).data)) ++ (Nat.repr b).data := by
    rw [String.data_append, hlit]
  have hfoo_nodash : ∀ c ∈ ("foo" : String).data, c ≠ '-' := by decide
  have hcontains : goContains ("foo-thinking-" ++ Nat.repr b) "-thinking-" = true := by
    unfold goContains
    rw [hsep, hdata]
    have hshape :
        (("foo" : String).data ++ ('-' :: ("thinking-" : String).data)) ++ (Nat.repr b).data
          = ("foo" : String).data
            ++ '-' :: (("thinking-" : String).data ++ (Nat.repr b).data) := by
      simp
    rw [hshape]
    exact goContainsList_pre_append '-' ("thinking-" : String).data
      ("foo" : String).data (Nat.repr b).data
  have hsplitList : goSplitList '-' ("thinking-" : String).data
        (("foo-thinking-" ++ Nat.repr b).data)
      = [("foo" : String).data, (Nat.repr b).data] := by
    rw [hdata]
    rw [goSplitList_pre_append '-' ("thinking-" : String).data
      ("foo" : String).data (Nat.repr b).data hfoo_nodash]
    rw [goSplitList_no_sep '-' ("thinking-" : String).data (Nat.repr b).data (repr_no_dash b)]
  have hsplit : goSplit ("foo-thinking-" ++ Nat.repr b) "-thinking-" = ["foo", Nat.repr b] := by
    unfold goSplit
    rw [hsep]
    simp only [List.map]
    rw [hsplitList]
    simp [hmk]
  constructor
  · simp [applyThinkingAdapter, hcontains, hsplit]
  · simp [parseDirective, hcontains, hsplit, toNat?_repr b]
